import Mathlib

/-!
Verification of the fsmonitor integration core (`fsmonitor.c`).

Shallow embedding conventions:
- byte strings (paths, tokens, response buffers, extension blobs) are
  `List Nat`, one element per byte (NUL = 0, the slash byte = 47);
- cache-entry flag words are represented by the two relevant bits only
  (`CE_FSMONITOR_VALID`, `CE_REMOVE`) as `Bool` fields;
- the external EWAH bitmap library (`ewah/ewok.h`, not part of the
  sources) and the two external index helpers (`index_name_pos`,
  `untracked_cache_invalidate_path`) are modelled from the spec, each
  with a doc comment saying so;
- out-parameters and in-place mutation become explicit state passing;
  `error(...)`/`BUG(...)` return paths become an `Option ReadErr` result.
-/

set_option maxRecDepth 10000

/-! ## Byte-level helpers -/

/-- Big-endian 32-bit serialisation of a word (`put_be32`). -/
def toBE32 (n : Nat) : List Nat :=
  [n / 2 ^ 24 % 256, n / 2 ^ 16 % 256, n / 2 ^ 8 % 256, n % 256]

/-- Big-endian 32-bit read (`get_be32`); missing bytes read as 0. -/
def readBE32 (l : List Nat) : Nat :=
  ((l.getD 0 0 * 256 + l.getD 1 0) * 256 + l.getD 2 0) * 256 + l.getD 3 0

/-- Big-endian 64-bit read (`get_be64`); missing bytes read as 0. -/
def readBE64 (l : List Nat) : Nat :=
  readBE32 l * 2 ^ 32 + readBE32 (l.drop 4)

/-- Decimal ASCII rendering of an unsigned integer, as `strbuf_addf`
with a `PRIu64` format produces it. -/
def decimalAscii (n : Nat) : List Nat :=
  (Nat.toDigits 10 n).map Char.toNat

/-- The bytes a `strbuf_addstr` copies from a NUL-terminated buffer:
everything up to the first NUL. -/
def tokenUpToNul (buf : List Nat) : List Nat :=
  buf.takeWhile (fun b => b ≠ 0)

/-- The byte string `"builtin:fake"`. -/
def builtin_fake : List Nat :=
  "builtin:fake".data.map Char.toNat

/-- The NUL-separated segments of a buffer, exactly as the apply-results
loop of `refresh_fsmonitor` emits them: a segment is emitted at every NUL
byte, and a trailing segment without a NUL terminator is also emitted. -/
def nulSegments : List Nat → List (List Nat)
  | [] => []
  | a :: rest =>
    if a = 0 then [] :: nulSegments rest
    else
      match nulSegments rest with
      | [] => [[a]]
      | seg :: segs => (a :: seg) :: segs

/-! ## EWAH bitmap model -/

/-- Modelled from the spec: the EWAH run-length-compressed bitset
(dependency `ewah/ewok.h`, outside the sources, "assumed available").
We keep the list of set positions in insertion order together with the
bit extent `bit_size` that `ewah_set` maintains. -/
structure EwahBitmap where
  setBits : List Nat
  bit_size : Nat
deriving DecidableEq

/-- Modelled from the spec: `ewah_new`. -/
def ewah_new : EwahBitmap := ⟨[], 0⟩

/-- Modelled from the spec: `ewah_set` records the position and grows the
bit extent. -/
def ewah_set (b : EwahBitmap) (pos : Nat) : EwahBitmap :=
  ⟨b.setBits ++ [pos], max b.bit_size (pos + 1)⟩

/-- Modelled from the spec: `ewah_serialize_strbuf`.  A concrete stand-in
codec for the EWAH wire format: bit extent, count of set positions, then
each position, all as big-endian 32-bit words. -/
def ewah_serialize (b : EwahBitmap) : List Nat :=
  toBE32 b.bit_size ++ toBE32 b.setBits.length ++ (b.setBits.map toBE32).flatten

/-- Decode `n` big-endian positions from a byte stream. -/
def readPositions : List Nat → Nat → List Nat
  | _, 0 => []
  | data, n + 1 => readBE32 data :: readPositions (data.drop 4) n

/-- Modelled from the spec: `ewah_read_mmap` decodes a serialised bitmap
from at most `len` bytes and reports how many bytes it consumed; a
malformed or truncated blob fails. -/
def ewah_read_mmap (data : List Nat) (len : Nat) : Option (EwahBitmap × Nat) :=
  if 8 ≤ len then
    if 8 + 4 * readBE32 (data.drop 4) ≤ len then
      some (⟨readPositions (data.drop 8) (readBE32 (data.drop 4)), readBE32 data⟩,
            8 + 4 * readBE32 (data.drop 4))
    else none
  else none

/-! ## Index data model -/

/-- One index cache entry; of the `ce_flags` word only the two bits the
fsmonitor core touches are represented. -/
structure CacheEntry where
  name : List Nat
  fsmonitor_valid : Bool
  ce_remove : Bool
deriving DecidableEq

/-- The untracked cache, reduced to what the fsmonitor core observes:
its `use_fsmonitor` flag and the log of paths it was told to invalidate. -/
structure Untracked where
  use_fsmonitor : Bool
  invalidated : List (List Nat)
deriving DecidableEq

/-- The slice of `struct index_state` the fsmonitor core reads or writes.
`cache_changed_fsmonitor` is the `FSMONITOR_CHANGED` bit of `cache_changed`. -/
structure IndexState where
  cache : List CacheEntry
  fsmonitor_last_update : Option (List Nat)
  fsmonitor_dirty : Option EwahBitmap
  cache_changed_fsmonitor : Bool
  untracked : Option Untracked
  fsmonitor_has_run_once : Bool
  split_index : Bool
deriving DecidableEq

/-- Placeholder entry for out-of-range reads (only used through `getD`
and `validAt`, never stored). -/
def defaultEntry : CacheEntry := ⟨[], false, false⟩

/-- Whether the entry at position `i` currently has `CE_FSMONITOR_VALID`
set (false when there is no such entry). -/
def validAt (st : IndexState) (i : Nat) : Bool :=
  ((st.cache.getD i defaultEntry).fsmonitor_valid)

/-- The check of `assert_index_minimum`: `pos` does not exceed the number
of index entries (its violation is a `BUG`, i.e. a fatal abort). -/
def assert_index_minimum (st : IndexState) (pos : Nat) : Prop :=
  pos ≤ st.cache.length

instance (st : IndexState) (pos : Nat) : Decidable (assert_index_minimum st pos) := by
  unfold assert_index_minimum; infer_instance

/-! ## Extension codec (`read_fsmonitor_extension`, `fill_fsmonitor_bitmap`,
`write_fsmonitor_extension`) -/

/-- The distinct failure exits of `read_fsmonitor_extension`:
`error("corrupt fsmonitor extension (too short)")`,
`error("bad fsmonitor version %d")`,
`error("failed to parse ewah bitmap ...")`, and the
`BUG` raised by `assert_index_minimum`. -/
inductive ReadErr where
  | tooShort
  | badVersion
  | ewahParse
  | bugRank
deriving DecidableEq

/-- Common tail of `read_fsmonitor_extension` after the version-dependent
token parse: store the token, read `ewah_size`, decode the EWAH blob,
check it consumed exactly `ewah_size` bytes, store the bitmap, and run
the rank assertion unless the index is a split index.  Note the token is
stored before the bitmap is validated (source line 78). -/
def readTail (istate : IndexState) (last_update : List Nat) (rest : List Nat) :
    Option ReadErr × IndexState :=
  match ewah_read_mmap (rest.drop 4) (readBE32 rest) with
  | none => (some ReadErr.ewahParse, { istate with fsmonitor_last_update := some last_update })
  | some (bitmap, consumed) =>
    if consumed = readBE32 rest then
      if istate.split_index = false ∧ ¬ assert_index_minimum istate bitmap.bit_size then
        (some ReadErr.bugRank,
         { istate with fsmonitor_last_update := some last_update,
                       fsmonitor_dirty := some bitmap })
      else
        (none,
         { istate with fsmonitor_last_update := some last_update,
                       fsmonitor_dirty := some bitmap })
    else (some ReadErr.ewahParse, { istate with fsmonitor_last_update := some last_update })

/-- `read_fsmonitor_extension`: length check, version word, token
(V1: big-endian u64 timestamp reformatted to decimal ASCII;
V2: NUL-terminated byte string), then the EWAH blob via `readTail`. -/
def read_fsmonitor_extension (istate : IndexState) (data : List Nat) :
    Option ReadErr × IndexState :=
  if data.length < 9 then (some ReadErr.tooShort, istate)
  else if readBE32 data = 1 then
    readTail istate (decimalAscii (readBE64 (data.drop 4))) ((data.drop 4).drop 8)
  else if readBE32 data = 2 then
    readTail istate (tokenUpToNul (data.drop 4))
      ((data.drop 4).drop ((tokenUpToNul (data.drop 4)).length + 1))
  else (some ReadErr.badVersion, istate)

/-- Loop body of `fill_fsmonitor_bitmap`: `i` counts all entries,
`skipped` counts the `CE_REMOVE` ones; a non-removed entry lacking
`CE_FSMONITOR_VALID` sets bit `i - skipped`. -/
def fill_loop : List CacheEntry → Nat → Nat → EwahBitmap → EwahBitmap
  | [], _, _, b => b
  | ce :: rest, i, skipped, b =>
    if ce.ce_remove then fill_loop rest (i + 1) (skipped + 1) b
    else if ce.fsmonitor_valid = false then
      fill_loop rest (i + 1) skipped (ewah_set b (i - skipped))
    else fill_loop rest (i + 1) skipped b

/-- `fill_fsmonitor_bitmap`: compute the dirty bitmap from the index. -/
def fill_fsmonitor_bitmap (istate : IndexState) : IndexState :=
  { istate with fsmonitor_dirty := some (fill_loop istate.cache 0 0 ewah_new) }

/-- `write_fsmonitor_extension`: always version 2 — version word, token
bytes plus one NUL, size word, EWAH blob.  The source appends a
placeholder size word and patches it with the measured blob length; the
net bytes are emitted directly here.  The bitmap is consumed. -/
def write_fsmonitor_extension (sb : List Nat) (istate : IndexState) :
    List Nat × IndexState :=
  let token := istate.fsmonitor_last_update.getD []
  let dirty := istate.fsmonitor_dirty.getD ewah_new
  let blob := ewah_serialize dirty
  (sb ++ toBE32 2 ++ token ++ [0] ++ toBE32 blob.length ++ blob,
   { istate with fsmonitor_dirty := none })

/-! ## Refresh engine (`refresh_fsmonitor` and helpers) -/

/-- The fsmonitor mode setting (`FSMONITOR_MODE_{DISABLED,HOOK,IPC}`). -/
inductive FsmonitorMode where
  | disabled
  | hook
  | ipc
deriving DecidableEq

/-- The environment a refresh runs in: the mode, the
`core.fsmonitorhookversion` config value, the outcome of an IPC query
(`some buf` on success), the outcome of a hook invocation for each
protocol version (`some buf` when the hook exits 0 with output `buf`),
and the `getnanotime()` reading taken before the query. -/
structure RefreshEnv where
  mode : FsmonitorMode
  hookVersionConfig : Option Int
  ipcResponse : Option (List Nat)
  hookResponse : Nat → Option (List Nat)
  nanotime : Nat

/-- `fsmonitor_hook_version`: `-1` when the config key is unset or
invalid (after a warning), else the configured 1 or 2. -/
def fsmonitor_hook_version (env : RefreshEnv) : Int :=
  match env.hookVersionConfig with
  | none => -1
  | some v => if v = 1 ∨ v = 2 then v else -1

/-- `fsmonitor_is_trivial_response`: the buffer has at least three bytes
and ends with NUL, slash, NUL. -/
def fsmonitor_is_trivial_response (query_result : List Nat) : Bool :=
  3 ≤ query_result.length && query_result.drop (query_result.length - 3) == [0, 47, 0]

/-- Modelled from the spec: `index_name_pos` (in the external index code,
`read-cache.c`) binary-searches the ordered index by path and returns the
position when the path is tracked. -/
def index_name_pos (istate : IndexState) (name : List Nat) : Option Nat :=
  istate.cache.findIdx? (fun ce => ce.name = name)

/-- Modelled from the spec: `untracked_cache_invalidate_path` (external,
`dir.c`) notifies the untracked cache of a possibly-changed path; we
record the notified path when an untracked cache exists. -/
def untracked_cache_invalidate_path (istate : IndexState) (name : List Nat) :
    IndexState :=
  match istate.untracked with
  | some u => { istate with untracked := some { u with invalidated := u.invalidated ++ [name] } }
  | none => istate

/-- Clear `CE_FSMONITOR_VALID` on the entry at `pos` (no-op past the end,
where the source's pointer write would be out of bounds). -/
def clearValidAt : List CacheEntry → Nat → List CacheEntry
  | [], _ => []
  | ce :: rest, 0 => { ce with fsmonitor_valid := false } :: rest
  | ce :: rest, pos + 1 => ce :: clearValidAt rest pos

/-- `fsmonitor_refresh_callback`: a name with a trailing slash clears
`CE_FSMONITOR_VALID` on every entry whose path starts with the slashed
name (then the slash is overwritten with NUL, so the untracked cache sees
the shortened form); any other name is looked up and cleared if tracked.
The untracked cache is notified either way. -/
def fsmonitor_refresh_callback (istate : IndexState) (name : List Nat) :
    IndexState :=
  if name.getLast? = some 47 then
    untracked_cache_invalidate_path
      { istate with cache := istate.cache.map (fun ce =>
          if ce.fsmonitor_valid && name.isPrefixOf ce.name then
            { ce with fsmonitor_valid := false }
          else ce) }
      name.dropLast
  else
    match index_name_pos istate name with
    | some pos =>
      untracked_cache_invalidate_path
        { istate with cache := clearValidAt istate.cache pos } name
    | none => untracked_cache_invalidate_path istate name

/-- `fsmonitor_force_update_threshold = 100`. -/
def fsmonitor_force_update_threshold : Nat := 100

/-- Set the untracked cache's `use_fsmonitor` flag, when one exists. -/
def setUseFsmonitor (istate : IndexState) (b : Bool) : IndexState :=
  match istate.untracked with
  | some u => { istate with untracked := some { u with use_fsmonitor := b } }
  | none => istate

/-- The `apply_results` tail of `refresh_fsmonitor`.  Branch A (success
and the byte right after the token is not a slash): feed every
NUL-separated segment to the refresh callback, enable the untracked
cache's fsmonitor usage, and request an index rewrite past the
force-update threshold.  Branch B: clear `CE_FSMONITOR_VALID`
everywhere, record whether anything actually changed, disable the
untracked cache's fsmonitor usage. -/
def apply_results (istate : IndexState) (query_success : Bool)
    (query_result : List Nat) (bol : Nat) : IndexState :=
  if query_success && (query_result.getD bol 0 != 47) then
    if fsmonitor_force_update_threshold < (nulSegments (query_result.drop bol)).length then
      { setUseFsmonitor ((nulSegments (query_result.drop bol)).foldl
          fsmonitor_refresh_callback istate) true with
        cache_changed_fsmonitor := true }
    else
      setUseFsmonitor ((nulSegments (query_result.drop bol)).foldl
        fsmonitor_refresh_callback istate) true
  else
    if istate.cache.any (fun ce => ce.fsmonitor_valid) then
      setUseFsmonitor
        { istate with
          cache := istate.cache.map (fun ce => { ce with fsmonitor_valid := false }),
          cache_changed_fsmonitor := true } false
    else
      setUseFsmonitor
        { istate with
          cache := istate.cache.map (fun ce => { ce with fsmonitor_valid := false }) }
        false

/-- Outcome of the query phase of `refresh_fsmonitor`: the final
`query_success`, `query_result`, `last_update_token` and `bol` values,
plus the list of hook protocol versions actually invoked, in order. -/
structure QueryOutcome where
  success : Bool
  result : List Nat
  token : List Nat
  bol : Nat
  calls : List Nat

/-- The query phase of `refresh_fsmonitor` (source lines 297-399).
IPC mode: on success the token is the response prefix up to the first
NUL and `bol` skips it; on failure the token is `"builtin:fake"`.  Hook
mode: a v1 hook version seeds the token from the pre-query clock; with a
stored prior token, v2 (for an unspecified or v2 hook version) is tried
first — a successful call locks an unspecified version to v2 and an
empty returned token demotes the query to failed — and only a failed v2
call with an unspecified version falls back to a v1 invocation. -/
def runQuery (env : RefreshEnv) (prev : Option (List Nat)) : QueryOutcome :=
  match env.mode with
  | FsmonitorMode.ipc =>
    match env.ipcResponse with
    | some buf =>
      { success := true, result := buf, token := tokenUpToNul buf,
        bol := (tokenUpToNul buf).length + 1, calls := [] }
    | none =>
      { success := false, result := [], token := builtin_fake, bol := 0, calls := [] }
  | _ =>
    match prev with
    | none =>
      { success := false, result := [],
        token := if fsmonitor_hook_version env = 1 then decimalAscii env.nanotime else [],
        bol := 0, calls := [] }
    | some _ =>
      if fsmonitor_hook_version env = -1 ∨ fsmonitor_hook_version env = 2 then
        match env.hookResponse 2 with
        | some buf =>
          if (tokenUpToNul buf).length = 0 then
            { success := false, result := buf, token := [], bol := 0, calls := [2] }
          else
            { success := true, result := buf, token := tokenUpToNul buf,
              bol := (tokenUpToNul buf).length + 1, calls := [2] }
        | none =>
          if fsmonitor_hook_version env = -1 then
            match env.hookResponse 1 with
            | some buf =>
              { success := true, result := buf, token := decimalAscii env.nanotime,
                bol := 0, calls := [2, 1] }
            | none =>
              { success := false, result := [], token := decimalAscii env.nanotime,
                bol := 0, calls := [2, 1] }
          else
            { success := false, result := [], token := [], bol := 0, calls := [2] }
      else
        match env.hookResponse 1 with
        | some buf =>
          { success := true, result := buf,
            token := if fsmonitor_hook_version env = 1 then decimalAscii env.nanotime else [],
            bol := 0, calls := [1] }
        | none =>
          { success := false, result := [],
            token := if fsmonitor_hook_version env = 1 then decimalAscii env.nanotime else [],
            bol := 0, calls := [1] }

/-- `refresh_fsmonitor`, also reporting which hook versions were
invoked: a no-op when the mode is disabled or the refresh already ran
this session; otherwise mark the session as run, query the provider,
apply the results, and replace the stored token. -/
def refresh_fsmonitor_full (env : RefreshEnv) (istate : IndexState) :
    IndexState × List Nat :=
  if env.mode = FsmonitorMode.disabled ∨ istate.fsmonitor_has_run_once = true then
    (istate, [])
  else
    ({ apply_results { istate with fsmonitor_has_run_once := true }
         (runQuery env istate.fsmonitor_last_update).success
         (runQuery env istate.fsmonitor_last_update).result
         (runQuery env istate.fsmonitor_last_update).bol with
       fsmonitor_last_update := some (runQuery env istate.fsmonitor_last_update).token },
     (runQuery env istate.fsmonitor_last_update).calls)

/-- `refresh_fsmonitor` proper (just the state effect). -/
def refresh_fsmonitor (env : RefreshEnv) (istate : IndexState) : IndexState :=
  (refresh_fsmonitor_full env istate).1

/-! ## Lifecycle (`add_fsmonitor`, `remove_fsmonitor`, `tweak_fsmonitor`) -/

/-- `fsmonitor_ewah_callback`: clear `CE_FSMONITOR_VALID` on the entry at
a restored bitmap position (the source asserts `pos + 1` is within the
index first). -/
def fsmonitor_ewah_callback (istate : IndexState) (pos : Nat) : IndexState :=
  { istate with cache := clearValidAt istate.cache pos }

/-- `add_fsmonitor`: when no token is stored, request an index rewrite,
seed the token from the clock, clear every entry's `CE_FSMONITOR_VALID`,
re-enable the untracked cache's fsmonitor usage, and refresh. -/
def add_fsmonitor (env : RefreshEnv) (istate : IndexState) : IndexState :=
  match istate.fsmonitor_last_update with
  | some _ => istate
  | none =>
    refresh_fsmonitor env
      (setUseFsmonitor
        { istate with
          cache_changed_fsmonitor := true,
          fsmonitor_last_update := some (decimalAscii env.nanotime),
          cache := istate.cache.map (fun ce => { ce with fsmonitor_valid := false }) }
        true)

/-- `remove_fsmonitor`: when a token is stored, request an index rewrite
and drop the token. -/
def remove_fsmonitor (istate : IndexState) : IndexState :=
  match istate.fsmonitor_last_update with
  | some _ => { istate with cache_changed_fsmonitor := true, fsmonitor_last_update := none }
  | none => istate

/-- `tweak_fsmonitor`: reconcile a restored dirty bitmap with the current
mode — when enabled, mark everything valid, clear the restored positions,
and refresh; either way drop the bitmap — then attach or detach. -/
def tweak_fsmonitor (env : RefreshEnv) (istate : IndexState) : IndexState :=
  match istate.fsmonitor_dirty with
  | none =>
    if env.mode ≠ FsmonitorMode.disabled then add_fsmonitor env istate
    else remove_fsmonitor istate
  | some dirty =>
    if env.mode ≠ FsmonitorMode.disabled then
      add_fsmonitor env
        { (refresh_fsmonitor env
            (dirty.setBits.foldl fsmonitor_ewah_callback
              { istate with cache := istate.cache.map (fun ce => { ce with fsmonitor_valid := true }) })) with
          fsmonitor_dirty := none }
    else
      remove_fsmonitor { istate with fsmonitor_dirty := none }

/-! ## Byte-level lemmas -/

theorem toBE32_length (n : Nat) : (toBE32 n).length = 4 := by
  simp [toBE32]

theorem readBE32_toBE32 (n : Nat) (rest : List Nat) (h : n < 2 ^ 32) :
    readBE32 (toBE32 n ++ rest) = n := by
  simp only [toBE32, readBE32, List.cons_append, List.nil_append,
    List.getD_cons_zero, List.getD_cons_succ]
  omega

theorem drop4_toBE32 (n : Nat) (rest : List Nat) :
    (toBE32 n ++ rest).drop 4 = rest := by
  simp [toBE32]

theorem tokenUpToNul_append (tok rest : List Nat) (h : 0 ∉ tok) :
    tokenUpToNul (tok ++ 0 :: rest) = tok := by
  induction tok with
  | nil => simp [tokenUpToNul]
  | cons a t ih =>
    simp only [List.mem_cons, not_or] at h
    have ha : a ≠ 0 := fun hc => h.1 hc.symm
    have ih' := ih h.2
    simp only [tokenUpToNul] at ih' ⊢
    rw [List.cons_append, List.takeWhile_cons_of_pos (by simpa using ha), ih']

theorem drop_token (tok rest : List Nat) :
    (tok ++ 0 :: rest).drop (tok.length + 1) = rest := by
  induction tok with
  | nil => simp
  | cons a t ih =>
    simp only [List.cons_append, List.length_cons, List.drop_succ_cons]
    exact ih

theorem flatten_map_toBE32_length (ps : List Nat) :
    ((ps.map toBE32).flatten).length = 4 * ps.length := by
  induction ps with
  | nil => simp
  | cons p t ih => simp [ih, toBE32_length]; ring

theorem readPositions_roundtrip (ps rest : List Nat) (h : ∀ p ∈ ps, p < 2 ^ 32) :
    readPositions ((ps.map toBE32).flatten ++ rest) ps.length = ps := by
  induction ps generalizing rest with
  | nil => simp [readPositions]
  | cons p t ih =>
    simp only [List.map_cons, List.flatten_cons, List.append_assoc, List.length_cons]
    rw [readPositions]
    rw [readBE32_toBE32 p _ (h p (List.mem_cons_self p t))]
    rw [drop4_toBE32]
    rw [ih rest (fun q hq => h q (List.mem_cons_of_mem p hq))]

theorem ewah_serialize_length (b : EwahBitmap) :
    (ewah_serialize b).length = 8 + 4 * b.setBits.length := by
  unfold ewah_serialize
  rw [List.length_append, List.length_append, flatten_map_toBE32_length,
    toBE32_length, toBE32_length]

/-! ## `fill_fsmonitor_bitmap` bounds -/

theorem fill_loop_bit_size (l : List CacheEntry) (i s : Nat) (b : EwahBitmap)
    (h : b.bit_size ≤ i) : (fill_loop l i s b).bit_size ≤ i + l.length := by
  induction l generalizing i s b with
  | nil => simpa [fill_loop] using h
  | cons ce t ih =>
    simp only [fill_loop, List.length_cons]
    split
    · have := ih (i + 1) (s + 1) b (by omega)
      omega
    · split
      · have hb : (ewah_set b (i - s)).bit_size ≤ i + 1 := by
          simp only [ewah_set]
          omega
        have := ih (i + 1) s _ hb
        omega
      · have := ih (i + 1) s b (by omega)
        omega

theorem fill_loop_count (l : List CacheEntry) (i s : Nat) (b : EwahBitmap) :
    (fill_loop l i s b).setBits.length ≤ b.setBits.length + l.length := by
  induction l generalizing i s b with
  | nil => simp [fill_loop]
  | cons ce t ih =>
    simp only [fill_loop, List.length_cons]
    split
    · have := ih (i + 1) (s + 1) b
      omega
    · split
      · have h2 := ih (i + 1) s (ewah_set b (i - s))
        have h3 : (ewah_set b (i - s)).setBits.length = b.setBits.length + 1 := by
          simp [ewah_set]
        omega
      · have := ih (i + 1) s b
        omega

theorem fill_loop_mem (l : List CacheEntry) (i s : Nat) (b : EwahBitmap)
    (p : Nat) (hp : p ∈ (fill_loop l i s b).setBits) :
    p ∈ b.setBits ∨ p < i + l.length := by
  induction l generalizing i s b with
  | nil =>
    simp only [fill_loop] at hp
    exact Or.inl hp
  | cons ce t ih =>
    simp only [fill_loop, List.length_cons] at hp ⊢
    split at hp
    · rcases ih (i + 1) (s + 1) b hp with h | h
      · exact Or.inl h
      · right; omega
    · split at hp
      · rcases ih (i + 1) s (ewah_set b (i - s)) hp with h | h
        · simp only [ewah_set, List.mem_append, List.mem_singleton] at h
          rcases h with h | h
          · exact Or.inl h
          · right; omega
        · right; omega
      · rcases ih (i + 1) s b hp with h | h
        · exact Or.inl h
        · right; omega

/-! ## Round-trip machinery for the extension codec -/

theorem readPositions_of_serialized (ps : List Nat) (h : ∀ p ∈ ps, p < 2 ^ 32) :
    readPositions ((ps.map toBE32).flatten) ps.length = ps := by
  have := readPositions_roundtrip ps [] h
  simpa using this

theorem readTail_of_serialize (st2 : IndexState) (tok : List Nat) (B : EwahBitmap)
    (hbs : B.bit_size < 2 ^ 32)
    (hcnt : B.setBits.length < 2 ^ 29)
    (hmem : ∀ p ∈ B.setBits, p < 2 ^ 32)
    (hbug : B.bit_size ≤ st2.cache.length) :
    readTail st2 tok (toBE32 (ewah_serialize B).length ++ ewah_serialize B) =
      (none, { st2 with fsmonitor_last_update := some tok,
                        fsmonitor_dirty := some B }) := by
  have hL : (ewah_serialize B).length = 8 + 4 * B.setBits.length := ewah_serialize_length B
  have hL32 : (ewah_serialize B).length < 2 ^ 32 := by omega
  have hsz : readBE32 (toBE32 (ewah_serialize B).length ++ ewah_serialize B) =
      (ewah_serialize B).length := readBE32_toBE32 _ _ hL32
  have hrest : (toBE32 (ewah_serialize B).length ++ ewah_serialize B).drop 4 =
      ewah_serialize B := drop4_toBE32 _ _
  have hser : ewah_serialize B =
      toBE32 B.bit_size ++ (toBE32 B.setBits.length ++ (B.setBits.map toBE32).flatten) := rfl
  have hb32 : readBE32 (ewah_serialize B) = B.bit_size := by
    rw [hser]; exact readBE32_toBE32 _ _ hbs
  have hc32 : readBE32 ((ewah_serialize B).drop 4) = B.setBits.length := by
    rw [hser, drop4_toBE32]; exact readBE32_toBE32 _ _ (by omega)
  have h8 : (ewah_serialize B).drop 8 = (B.setBits.map toBE32).flatten := by
    rw [hser, show (8 : Nat) = 4 + 4 from rfl, ← List.drop_drop, drop4_toBE32, drop4_toBE32]
  have hmm : ewah_read_mmap (ewah_serialize B) (ewah_serialize B).length =
      some (⟨B.setBits, B.bit_size⟩, 8 + 4 * B.setBits.length) := by
    unfold ewah_read_mmap
    rw [hc32, h8, hb32, readPositions_of_serialized B.setBits hmem,
      if_pos (show 8 ≤ (ewah_serialize B).length by omega),
      if_pos (show 8 + 4 * B.setBits.length ≤ (ewah_serialize B).length by omega)]
  unfold readTail
  rw [hsz, hrest]
  simp only [hmm]
  have hcons : (8 + 4 * B.setBits.length = (ewah_serialize B).length) := by omega
  have hnotbug : ¬ (st2.split_index = false ∧
      ¬ assert_index_minimum st2 B.bit_size) := by
    intro hc
    exact hc.2 hbug
  rw [if_pos hcons, if_neg hnotbug]

theorem read_of_write (st2 : IndexState) (tok : List Nat) (B : EwahBitmap)
    (hNul : 0 ∉ tok)
    (hbs : B.bit_size < 2 ^ 32)
    (hcnt : B.setBits.length < 2 ^ 29)
    (hmem : ∀ p ∈ B.setBits, p < 2 ^ 32)
    (hbug : B.bit_size ≤ st2.cache.length) :
    read_fsmonitor_extension st2
      (toBE32 2 ++ (tok ++ 0 :: (toBE32 (ewah_serialize B).length ++ ewah_serialize B))) =
      (none, { st2 with fsmonitor_last_update := some tok,
                        fsmonitor_dirty := some B }) := by
  have hlen : ¬ ((toBE32 2 ++ (tok ++ 0 ::
      (toBE32 (ewah_serialize B).length ++ ewah_serialize B))).length < 9) := by
    simp only [List.length_append, toBE32_length, List.length_cons]
    omega
  have hv : readBE32 (toBE32 2 ++ (tok ++ 0 ::
      (toBE32 (ewah_serialize B).length ++ ewah_serialize B))) = 2 :=
    readBE32_toBE32 2 _ (by norm_num)
  have hd4 : (toBE32 2 ++ (tok ++ 0 ::
      (toBE32 (ewah_serialize B).length ++ ewah_serialize B))).drop 4 =
      tok ++ 0 :: (toBE32 (ewah_serialize B).length ++ ewah_serialize B) := drop4_toBE32 _ _
  unfold read_fsmonitor_extension
  rw [if_neg hlen, hv, if_neg (by norm_num), if_pos rfl, hd4,
    tokenUpToNul_append _ _ hNul, drop_token]
  exact readTail_of_serialize st2 tok B hbs hcnt hmem hbug

theorem fill_bit_size_le (st : IndexState) :
    (fill_loop st.cache 0 0 ewah_new).bit_size ≤ st.cache.length := by
  have := fill_loop_bit_size st.cache 0 0 ewah_new (by simp [ewah_new])
  simpa using this

theorem fill_count_le (st : IndexState) :
    (fill_loop st.cache 0 0 ewah_new).setBits.length ≤ st.cache.length := by
  have := fill_loop_count st.cache 0 0 ewah_new
  simpa [ewah_new] using this

theorem fill_mem_lt (st : IndexState) (p : Nat)
    (hp : p ∈ (fill_loop st.cache 0 0 ewah_new).setBits) : p < st.cache.length := by
  rcases fill_loop_mem st.cache 0 0 ewah_new p hp with h | h
  · simp [ewah_new] at h
  · simpa using h

/-- claim C5: the extension codec round-trips — for an index whose dirty
bitmap was produced by `fill_fsmonitor_bitmap` (removed entries skip a
position; bit `i - skipped` is set exactly when the entry lacks
`CE_FSMONITOR_VALID`), writing the extension (always version 2: version
word, token bytes plus one NUL, size word patched to the measured blob
length) and reading the written bytes back restores the `(token,
dirty-set)` pair bit-identically. -/
theorem extension_roundtrip (st : IndexState) (tok : List Nat)
    (hTok : st.fsmonitor_last_update = some tok) (hNul : 0 ∉ tok)
    (hN : st.cache.length < 2 ^ 29) :
    (read_fsmonitor_extension
        (write_fsmonitor_extension [] (fill_fsmonitor_bitmap st)).2
        (write_fsmonitor_extension [] (fill_fsmonitor_bitmap st)).1).1 = none ∧
    (read_fsmonitor_extension
        (write_fsmonitor_extension [] (fill_fsmonitor_bitmap st)).2
        (write_fsmonitor_extension [] (fill_fsmonitor_bitmap st)).1).2.fsmonitor_last_update
      = (fill_fsmonitor_bitmap st).fsmonitor_last_update ∧
    (read_fsmonitor_extension
        (write_fsmonitor_extension [] (fill_fsmonitor_bitmap st)).2
        (write_fsmonitor_extension [] (fill_fsmonitor_bitmap st)).1).2.fsmonitor_dirty
      = (fill_fsmonitor_bitmap st).fsmonitor_dirty := by
  set B := fill_loop st.cache 0 0 ewah_new with hB
  have hbs0 : B.bit_size ≤ st.cache.length := fill_bit_size_le st
  have hcnt0 : B.setBits.length ≤ st.cache.length := fill_count_le st
  have e2 : (write_fsmonitor_extension [] (fill_fsmonitor_bitmap st)).2 =
      { st with fsmonitor_dirty := none } := rfl
  have e1 : (write_fsmonitor_extension [] (fill_fsmonitor_bitmap st)).1 =
      toBE32 2 ++ (tok ++ 0 :: (toBE32 (ewah_serialize B).length ++ ewah_serialize B)) := by
    simp only [write_fsmonitor_extension, fill_fsmonitor_bitmap, hTok]
    simp [hB]
  have key := read_of_write ({ st with fsmonitor_dirty := none }) tok B hNul
    (by omega) (by omega) (fun p hp => by have := fill_mem_lt st p (hB ▸ hp); omega)
    (by simpa using hbs0)
  rw [e1, e2, key]
  refine ⟨rfl, ?_, rfl⟩
  simp [fill_fsmonitor_bitmap, hTok]

/-- witness for C5 at a concrete four-entry index (one entry removed, two
dirty). -/
theorem extension_roundtrip_witness :
    (read_fsmonitor_extension
        (write_fsmonitor_extension [] (fill_fsmonitor_bitmap
          ⟨[⟨[97], false, false⟩, ⟨[98], true, false⟩, ⟨[99], false, true⟩,
            ⟨[100], false, false⟩], some [84, 49], none, false, none, false, false⟩)).2
        (write_fsmonitor_extension [] (fill_fsmonitor_bitmap
          ⟨[⟨[97], false, false⟩, ⟨[98], true, false⟩, ⟨[99], false, true⟩,
            ⟨[100], false, false⟩], some [84, 49], none, false, none, false, false⟩)).1).1 = none ∧
    (read_fsmonitor_extension
        (write_fsmonitor_extension [] (fill_fsmonitor_bitmap
          ⟨[⟨[97], false, false⟩, ⟨[98], true, false⟩, ⟨[99], false, true⟩,
            ⟨[100], false, false⟩], some [84, 49], none, false, none, false, false⟩)).2
        (write_fsmonitor_extension [] (fill_fsmonitor_bitmap
          ⟨[⟨[97], false, false⟩, ⟨[98], true, false⟩, ⟨[99], false, true⟩,
            ⟨[100], false, false⟩], some [84, 49], none, false, none, false, false⟩)).1).2.fsmonitor_last_update
      = (fill_fsmonitor_bitmap
          ⟨[⟨[97], false, false⟩, ⟨[98], true, false⟩, ⟨[99], false, true⟩,
            ⟨[100], false, false⟩], some [84, 49], none, false, none, false, false⟩).fsmonitor_last_update ∧
    (read_fsmonitor_extension
        (write_fsmonitor_extension [] (fill_fsmonitor_bitmap
          ⟨[⟨[97], false, false⟩, ⟨[98], true, false⟩, ⟨[99], false, true⟩,
            ⟨[100], false, false⟩], some [84, 49], none, false, none, false, false⟩)).2
        (write_fsmonitor_extension [] (fill_fsmonitor_bitmap
          ⟨[⟨[97], false, false⟩, ⟨[98], true, false⟩, ⟨[99], false, true⟩,
            ⟨[100], false, false⟩], some [84, 49], none, false, none, false, false⟩)).1).2.fsmonitor_dirty
      = (fill_fsmonitor_bitmap
          ⟨[⟨[97], false, false⟩, ⟨[98], true, false⟩, ⟨[99], false, true⟩,
            ⟨[100], false, false⟩], some [84, 49], none, false, none, false, false⟩).fsmonitor_dirty :=
  extension_roundtrip
    ⟨[⟨[97], false, false⟩, ⟨[98], true, false⟩, ⟨[99], false, true⟩,
      ⟨[100], false, false⟩], some [84, 49], none, false, none, false, false⟩
    [84, 49] rfl (by decide) (by decide)

/-! ## Error classification of the extension reader -/

theorem readTail_first_cases (st : IndexState) (t r : List Nat) :
    (readTail st t r).1 = none ∨ (readTail st t r).1 = some ReadErr.ewahParse ∨
      (readTail st t r).1 = some ReadErr.bugRank := by
  unfold readTail
  split
  · simp
  · split
    · split
      · simp
      · simp
    · simp

theorem readTail_token (st : IndexState) (t r : List Nat) :
    (readTail st t r).2.fsmonitor_last_update = some t := by
  unfold readTail
  split
  · simp
  · split
    · split
      · simp
      · simp
    · simp

theorem readTail_success_dirty (st : IndexState) (t r : List Nat)
    (hsucc : (readTail st t r).1 = none) (hsplit : st.split_index = false) :
    ∀ b, (readTail st t r).2.fsmonitor_dirty = some b → b.bit_size ≤ st.cache.length := by
  intro b hb
  unfold readTail at hsucc hb
  split at hsucc
  · simp at hsucc
  · split at hsucc
    · split at hsucc
      · simp at hsucc
      · rename_i bitmap consumed hmm hcons hcond
        simp only [hmm] at hb
        rw [if_pos hcons, if_neg hcond] at hb
        simp at hb
        subst hb
        by_cases ha : assert_index_minimum st bitmap.bit_size
        · exact ha
        · exact absurd ⟨hsplit, ha⟩ hcond
    · simp at hsucc

theorem readTail_ewahParse_iff (st : IndexState) (t r : List Nat) :
    (readTail st t r).1 = some ReadErr.ewahParse ↔
      ∀ b c, ewah_read_mmap (r.drop 4) (readBE32 r) = some (b, c) → c ≠ readBE32 r := by
  unfold readTail
  split
  · rename_i hmm
    simp [hmm]
  · rename_i bitmap consumed hmm
    by_cases h1 : consumed = readBE32 r
    · rw [if_pos h1]
      constructor
      · intro hc
        split at hc <;> simp at hc
      · intro hr
        exact absurd h1 (hr bitmap consumed hmm)
    · rw [if_neg h1]
      constructor
      · intro _ b c hbc
        rw [hmm] at hbc
        cases hbc
        exact h1
      · intro _
        rfl

theorem read_tooShort_iff (st : IndexState) (data : List Nat) :
    (read_fsmonitor_extension st data).1 = some ReadErr.tooShort ↔ data.length < 9 := by
  unfold read_fsmonitor_extension
  by_cases h : data.length < 9
  · rw [if_pos h]
    simp [h]
  · rw [if_neg h]
    by_cases h1 : readBE32 data = 1
    · rw [if_pos h1]
      rcases readTail_first_cases st (decimalAscii (readBE64 (data.drop 4)))
          ((data.drop 4).drop 8) with hc | hc | hc <;> rw [hc] <;> simp [h]
    · rw [if_neg h1]
      by_cases h2 : readBE32 data = 2
      · rw [if_pos h2]
        rcases readTail_first_cases st (tokenUpToNul (data.drop 4))
            ((data.drop 4).drop ((tokenUpToNul (data.drop 4)).length + 1)) with
          hc | hc | hc <;> rw [hc] <;> simp [h]
      · rw [if_neg h2]
        simp [h]

theorem read_badVersion_iff (st : IndexState) (data : List Nat) :
    (read_fsmonitor_extension st data).1 = some ReadErr.badVersion ↔
      (9 ≤ data.length ∧ readBE32 data ≠ 1 ∧ readBE32 data ≠ 2) := by
  unfold read_fsmonitor_extension
  by_cases h : data.length < 9
  · rw [if_pos h]
    simp
    omega
  · rw [if_neg h]
    by_cases h1 : readBE32 data = 1
    · rw [if_pos h1]
      rcases readTail_first_cases st (decimalAscii (readBE64 (data.drop 4)))
          ((data.drop 4).drop 8) with hc | hc | hc <;> rw [hc] <;> simp [h1]
    · rw [if_neg h1]
      by_cases h2 : readBE32 data = 2
      · rw [if_pos h2]
        rcases readTail_first_cases st (tokenUpToNul (data.drop 4))
            ((data.drop 4).drop ((tokenUpToNul (data.drop 4)).length + 1)) with
          hc | hc | hc <;> rw [hc] <;> simp [h2]
      · rw [if_neg h2]
        simp [h1, h2]
        omega

/-- claim C6: reading the extension fails exactly when the total length
is below 9 bytes (Corrupt) or the version word is neither 1 nor 2
(UnknownVersion), and the `ewahParse` failure of the common tail happens
exactly when the declared `ewah_size` is not the byte count consumed by
the EWAH decoder; on success a V1 token (big-endian u64 nanosecond
timestamp) is stored as its decimal ASCII representation, a V2 token is
the NUL-terminated byte string, and the restored bitmap's extent is at
most the entry count unless the index is a split index. -/
theorem read_extension_error_spec (st : IndexState) (data : List Nat) :
    ((read_fsmonitor_extension st data).1 = some ReadErr.tooShort ↔ data.length < 9) ∧
    ((read_fsmonitor_extension st data).1 = some ReadErr.badVersion ↔
      (9 ≤ data.length ∧ readBE32 data ≠ 1 ∧ readBE32 data ≠ 2)) ∧
    ((read_fsmonitor_extension st data).1 = none →
      (readBE32 data = 1 →
        (read_fsmonitor_extension st data).2.fsmonitor_last_update =
          some (decimalAscii (readBE64 (data.drop 4)))) ∧
      (readBE32 data = 2 →
        (read_fsmonitor_extension st data).2.fsmonitor_last_update =
          some (tokenUpToNul (data.drop 4))) ∧
      (st.split_index = false →
        ∀ b, (read_fsmonitor_extension st data).2.fsmonitor_dirty = some b →
          b.bit_size ≤ st.cache.length)) ∧
    (∀ t r, (readTail st t r).1 = some ReadErr.ewahParse ↔
      ∀ b c, ewah_read_mmap (r.drop 4) (readBE32 r) = some (b, c) → c ≠ readBE32 r) := by
  refine ⟨read_tooShort_iff st data, read_badVersion_iff st data, ?_,
    fun t r => readTail_ewahParse_iff st t r⟩
  intro hsucc
  by_cases h : data.length < 9
  · exfalso
    have hts : (read_fsmonitor_extension st data).1 = some ReadErr.tooShort :=
      (read_tooShort_iff st data).2 h
    rw [hsucc] at hts
    simp at hts
  · by_cases h1 : readBE32 data = 1
    · have hre : read_fsmonitor_extension st data =
          readTail st (decimalAscii (readBE64 (data.drop 4))) ((data.drop 4).drop 8) := by
        unfold read_fsmonitor_extension
        rw [if_neg h, if_pos h1]
      rw [hre] at hsucc ⊢
      exact ⟨fun _ => readTail_token _ _ _,
        fun h2 => absurd (h1.symm.trans h2) (by norm_num),
        fun hsp b hb => readTail_success_dirty st _ _ hsucc hsp b hb⟩
    · by_cases h2 : readBE32 data = 2
      · have hre : read_fsmonitor_extension st data =
            readTail st (tokenUpToNul (data.drop 4))
              ((data.drop 4).drop ((tokenUpToNul (data.drop 4)).length + 1)) := by
          unfold read_fsmonitor_extension
          rw [if_neg h, if_neg h1, if_pos h2]
        rw [hre] at hsucc ⊢
        exact ⟨fun h1' => absurd h1' h1,
          fun _ => readTail_token _ _ _,
          fun hsp b hb => readTail_success_dirty st _ _ hsucc hsp b hb⟩
      · exfalso
        have hbv : (read_fsmonitor_extension st data).1 = some ReadErr.badVersion :=
          (read_badVersion_iff st data).2 ⟨by omega, h1, h2⟩
        rw [hsucc] at hbv
        simp at hbv

/-- witness for C6: a successful version-2 read of a concrete 18-byte
extension blob, through the success conjunct of the claim theorem. -/
theorem read_extension_error_spec_witness :
    (read_fsmonitor_extension ⟨[], some [90], none, false, none, false, false⟩
      [0, 0, 0, 2, 65, 0, 0, 0, 0, 8, 0, 0, 0, 0, 0, 0, 0, 0]).2.fsmonitor_last_update =
      some (tokenUpToNul ([0, 0, 0, 2, 65, 0, 0, 0, 0, 8, 0, 0, 0, 0, 0, 0, 0, 0].drop 4)) :=
  ((read_extension_error_spec ⟨[], some [90], none, false, none, false, false⟩
      [0, 0, 0, 2, 65, 0, 0, 0, 0, 8, 0, 0, 0, 0, 0, 0, 0, 0]).2.2.1
    (by decide)).2.1 (by decide)

/-- claim C10: when the version header and the token parse but the EWAH
blob is rejected, `read_fsmonitor_extension` returns the parse error yet
the index token has already been overwritten with the token taken from
the rejected blob (the error path does not undo the assignment), and
this error only arises after a recognised version. -/
theorem read_ewahParse_token_overwritten (st : IndexState) (data : List Nat)
    (herr : (read_fsmonitor_extension st data).1 = some ReadErr.ewahParse) :
    (readBE32 data = 1 →
      (read_fsmonitor_extension st data).2.fsmonitor_last_update =
        some (decimalAscii (readBE64 (data.drop 4)))) ∧
    (readBE32 data = 2 →
      (read_fsmonitor_extension st data).2.fsmonitor_last_update =
        some (tokenUpToNul (data.drop 4))) ∧
    (readBE32 data = 1 ∨ readBE32 data = 2) := by
  by_cases h : data.length < 9
  · exfalso
    have hts : (read_fsmonitor_extension st data).1 = some ReadErr.tooShort :=
      (read_tooShort_iff st data).2 h
    rw [herr] at hts
    simp at hts
  · by_cases h1 : readBE32 data = 1
    · have hre : read_fsmonitor_extension st data =
          readTail st (decimalAscii (readBE64 (data.drop 4))) ((data.drop 4).drop 8) := by
        unfold read_fsmonitor_extension
        rw [if_neg h, if_pos h1]
      rw [hre]
      exact ⟨fun _ => readTail_token _ _ _,
        fun h2 => absurd (h1.symm.trans h2) (by norm_num), Or.inl h1⟩
    · by_cases h2 : readBE32 data = 2
      · have hre : read_fsmonitor_extension st data =
            readTail st (tokenUpToNul (data.drop 4))
              ((data.drop 4).drop ((tokenUpToNul (data.drop 4)).length + 1)) := by
          unfold read_fsmonitor_extension
          rw [if_neg h, if_neg h1, if_pos h2]
        rw [hre]
        exact ⟨fun h1' => absurd h1' h1,
          fun _ => readTail_token _ _ _, Or.inr h2⟩
      · exfalso
        have hbv : (read_fsmonitor_extension st data).1 = some ReadErr.badVersion :=
          (read_badVersion_iff st data).2 ⟨by omega, h1, h2⟩
        rw [herr] at hbv
        simp at hbv

/-- witness for C10: a concrete version-2 blob whose declared `ewah_size`
is 1 (never exactly consumed) — the read fails with the parse error and
the stored token has become the blob's token `[65]`, replacing `[90]`. -/
theorem read_ewahParse_token_overwritten_witness :
    (read_fsmonitor_extension ⟨[], some [90], none, false, none, false, false⟩
      [0, 0, 0, 2, 65, 0, 0, 0, 0, 1, 0]).1 = some ReadErr.ewahParse ∧
    (read_fsmonitor_extension ⟨[], some [90], none, false, none, false, false⟩
      [0, 0, 0, 2, 65, 0, 0, 0, 0, 1, 0]).2.fsmonitor_last_update =
      some (tokenUpToNul ([0, 0, 0, 2, 65, 0, 0, 0, 0, 1, 0].drop 4)) :=
  ⟨by decide,
    (read_ewahParse_token_overwritten ⟨[], some [90], none, false, none, false, false⟩
      [0, 0, 0, 2, 65, 0, 0, 0, 0, 1, 0] (by decide)).2.1 (by decide)⟩

/-! ## Preservation lemmas for the refresh callback chain -/

theorem ucip_cache (st : IndexState) (n : List Nat) :
    (untracked_cache_invalidate_path st n).cache = st.cache := by
  unfold untracked_cache_invalidate_path
  cases hu : st.untracked <;> simp

theorem ucip_changed (st : IndexState) (n : List Nat) :
    (untracked_cache_invalidate_path st n).cache_changed_fsmonitor =
      st.cache_changed_fsmonitor := by
  unfold untracked_cache_invalidate_path
  cases hu : st.untracked <;> simp

theorem ucip_isSome (st : IndexState) (n : List Nat) :
    (untracked_cache_invalidate_path st n).untracked.isSome = st.untracked.isSome := by
  unfold untracked_cache_invalidate_path
  cases hu : st.untracked <;> simp [hu]

theorem ucip_use (st : IndexState) (n : List Nat) :
    (untracked_cache_invalidate_path st n).untracked.map (fun u => u.use_fsmonitor) =
      st.untracked.map (fun u => u.use_fsmonitor) := by
  unfold untracked_cache_invalidate_path
  cases hu : st.untracked <;> simp [hu]

theorem callback_changed (st : IndexState) (n : List Nat) :
    (fsmonitor_refresh_callback st n).cache_changed_fsmonitor =
      st.cache_changed_fsmonitor := by
  unfold fsmonitor_refresh_callback
  split
  · rw [ucip_changed]
  · split <;> rw [ucip_changed]

theorem callback_isSome (st : IndexState) (n : List Nat) :
    (fsmonitor_refresh_callback st n).untracked.isSome = st.untracked.isSome := by
  unfold fsmonitor_refresh_callback
  split
  · rw [ucip_isSome]
  · split <;> rw [ucip_isSome]

theorem foldl_callback_changed (l : List (List Nat)) (st : IndexState) :
    (l.foldl fsmonitor_refresh_callback st).cache_changed_fsmonitor =
      st.cache_changed_fsmonitor := by
  induction l generalizing st with
  | nil => rfl
  | cons a t ih => rw [List.foldl_cons, ih, callback_changed]

theorem foldl_callback_isSome (l : List (List Nat)) (st : IndexState) :
    (l.foldl fsmonitor_refresh_callback st).untracked.isSome = st.untracked.isSome := by
  induction l generalizing st with
  | nil => rfl
  | cons a t ih => rw [List.foldl_cons, ih, callback_isSome]

theorem setUse_use (st : IndexState) (b : Bool) (h : st.untracked.isSome = true) :
    (setUseFsmonitor st b).untracked.map (fun u => u.use_fsmonitor) = some b := by
  unfold setUseFsmonitor
  cases hu : st.untracked with
  | none => rw [hu] at h; simp at h
  | some u => simp

theorem setUse_cache (st : IndexState) (b : Bool) :
    (setUseFsmonitor st b).cache = st.cache := by
  unfold setUseFsmonitor
  cases hu : st.untracked <;> simp

theorem setUse_changed (st : IndexState) (b : Bool) :
    (setUseFsmonitor st b).cache_changed_fsmonitor = st.cache_changed_fsmonitor := by
  unfold setUseFsmonitor
  cases hu : st.untracked <;> simp

theorem setUse_map (st : IndexState) (b : Bool) :
    (setUseFsmonitor st b).untracked.map (fun u => u.use_fsmonitor) =
      st.untracked.map (fun _ => b) := by
  unfold setUseFsmonitor
  cases hu : st.untracked <;> simp [hu]

/-- counterexample to C1 as stated: the successful response
`"T" NUL "a" NUL "/" NUL` ends with the three bytes NUL slash NUL (so
`fsmonitor_is_trivial_response` holds), yet the refresh engine applies it
as a path list: the unrelated entry `b` keeps `CE_FSMONITOR_VALID` and
the untracked cache's fsmonitor usage is enabled, not disabled. -/
theorem trivial_marker_not_branch_condition :
    fsmonitor_is_trivial_response [84, 0, 97, 0, 47, 0] = true ∧
    (refresh_fsmonitor
      ⟨FsmonitorMode.ipc, none, some [84, 0, 97, 0, 47, 0], fun _ => none, 5⟩
      ⟨[⟨[98], true, false⟩], none, none, false, some ⟨false, []⟩, false,
        false⟩).cache.map (fun ce => ce.fsmonitor_valid) = [true] ∧
    (refresh_fsmonitor
      ⟨FsmonitorMode.ipc, none, some [84, 0, 97, 0, 47, 0], fun _ => none, 5⟩
      ⟨[⟨[98], true, false⟩], none, none, false, some ⟨false, []⟩, false,
        false⟩).untracked.map (fun u => u.use_fsmonitor) = some true := by
  decide

/-- claim C1 (amended): the refresh engine selects the full-invalidation
branch by the byte at offset `bol` right after the token — not by the
terminal NUL-slash-NUL marker, which `fsmonitor_is_trivial_response`
checks but which is only consulted for tracing: with an untracked cache
present, its `use_fsmonitor` flag after apply-results is true exactly
when the query succeeded and the byte after the token is not a slash. -/
theorem apply_results_branch_selection (st : IndexState) (success : Bool)
    (result : List Nat) (bol : Nat) (h : st.untracked.isSome = true) :
    (apply_results st success result bol).untracked.map (fun u => u.use_fsmonitor) =
      some (success && (result.getD bol 0 != 47)) := by
  unfold apply_results
  by_cases hc : (success && (result.getD bol 0 != 47)) = true
  · rw [if_pos hc, hc]
    have hS : ((nulSegments (result.drop bol)).foldl fsmonitor_refresh_callback
        st).untracked.isSome = true := by
      rw [foldl_callback_isSome]; exact h
    split
    · exact setUse_use _ true hS
    · exact setUse_use _ true hS
  · have hb : (success && (result.getD bol 0 != 47)) = false := by
      cases hx : (success && (result.getD bol 0 != 47)) with
      | true => exact absurd hx hc
      | false => rfl
    rw [if_neg hc, hb]
    split
    · exact setUse_use _ false h
    · exact setUse_use _ false h

/-- witness for the amended C1 at a concrete failed query with an
untracked cache present. -/
theorem apply_results_branch_selection_witness :
    (apply_results ⟨[], none, none, false, some ⟨true, []⟩, false, false⟩
      false [] 0).untracked.map (fun u => u.use_fsmonitor) =
      some (false && (([] : List Nat).getD 0 0 != 47)) :=
  apply_results_branch_selection ⟨[], none, none, false, some ⟨true, []⟩, false, false⟩
    false [] 0 (by decide)

/-- counterexample to C3's claim that an empty path list takes branch B:
an IPC success whose response carries only a token (`"T" NUL`) takes
branch A — the valid entry stays valid and the untracked cache's
fsmonitor usage ends up enabled, not disabled. -/
theorem empty_path_list_takes_branch_a :
    (refresh_fsmonitor
      ⟨FsmonitorMode.ipc, none, some [84, 0], fun _ => none, 5⟩
      ⟨[⟨[98], true, false⟩], none, none, false, some ⟨false, []⟩, false,
        false⟩).cache.map (fun ce => ce.fsmonitor_valid) = [true] ∧
    (refresh_fsmonitor
      ⟨FsmonitorMode.ipc, none, some [84, 0], fun _ => none, 5⟩
      ⟨[⟨[98], true, false⟩], none, none, false, some ⟨false, []⟩, false,
        false⟩).untracked.map (fun u => u.use_fsmonitor) = some true := by
  decide

/-- claim C3 (amended): branch B — taken exactly when the query failed or
the byte right after the token is a slash — clears `CE_FSMONITOR_VALID`
on every entry, ORs `FSMONITOR_CHANGED` into `cache_changed` exactly when
some entry actually had the bit set, and disables the untracked cache's
fsmonitor usage; an empty path list on a successful query instead takes
branch A (see the counterexample). -/
theorem apply_results_branch_b (st : IndexState) (success : Bool)
    (result : List Nat) (bol : Nat)
    (h : success = false ∨ result.getD bol 0 = 47) :
    (∀ ce ∈ (apply_results st success result bol).cache, ce.fsmonitor_valid = false) ∧
    (apply_results st success result bol).cache_changed_fsmonitor =
      (st.cache_changed_fsmonitor || st.cache.any (fun ce => ce.fsmonitor_valid)) ∧
    (apply_results st success result bol).untracked.map (fun u => u.use_fsmonitor) =
      st.untracked.map (fun _ => false) := by
  have hc : (success && (result.getD bol 0 != 47)) = false := by
    rcases h with h | h
    · simp [h]
    · rw [h]; simp
  have hneg : ¬ ((success && (result.getD bol 0 != 47)) = true) := by
    rw [hc]; decide
  refine ⟨?_, ?_, ?_⟩
  · intro ce hce
    have hcache : (apply_results st success result bol).cache =
        st.cache.map (fun ce => { ce with fsmonitor_valid := false }) := by
      unfold apply_results
      rw [if_neg hneg]
      split <;> rw [setUse_cache]
    rw [hcache] at hce
    simp only [List.mem_map] at hce
    obtain ⟨x, _, rfl⟩ := hce
    rfl
  · unfold apply_results
    rw [if_neg hneg]
    split
    · rename_i ha
      rw [setUse_changed]
      simp [ha]
    · rename_i ha
      rw [setUse_changed]
      have hfa : st.cache.any (fun ce => ce.fsmonitor_valid) = false := by
        cases hx : st.cache.any (fun ce => ce.fsmonitor_valid) with
        | true => exact absurd hx ha
        | false => rfl
      simp [hfa]
  · unfold apply_results
    rw [if_neg hneg]
    split <;> rw [setUse_map]

/-- witness for the amended C3 at a concrete failed query over a
one-entry index. -/
theorem apply_results_branch_b_witness :
    (∀ ce ∈ (apply_results ⟨[⟨[97], true, false⟩], none, none, false,
        some ⟨true, []⟩, false, false⟩ false [] 0).cache, ce.fsmonitor_valid = false) ∧
    (apply_results ⟨[⟨[97], true, false⟩], none, none, false,
        some ⟨true, []⟩, false, false⟩ false [] 0).cache_changed_fsmonitor =
      (false || [CacheEntry.mk [97] true false].any (fun ce => ce.fsmonitor_valid)) ∧
    (apply_results ⟨[⟨[97], true, false⟩], none, none, false,
        some ⟨true, []⟩, false, false⟩ false [] 0).untracked.map
        (fun u => u.use_fsmonitor) =
      (some (Untracked.mk true [])).map (fun _ => false) :=
  apply_results_branch_b ⟨[⟨[97], true, false⟩], none, none, false,
    some ⟨true, []⟩, false, false⟩ false [] 0 (Or.inl rfl)

/-- claim C7: after a non-trivial response (branch A), `FSMONITOR_CHANGED`
is OR-ed into `cache_changed` exactly when the number of paths in the
response exceeds the force-update threshold of 100; a response of at most
100 paths leaves `cache_changed` untouched by this branch. -/
theorem apply_results_force_update (st : IndexState) (result : List Nat) (bol : Nat)
    (h : result.getD bol 0 ≠ 47) :
    (apply_results st true result bol).cache_changed_fsmonitor =
      (st.cache_changed_fsmonitor ||
        decide (fsmonitor_force_update_threshold <
          (nulSegments (result.drop bol)).length)) := by
  have hpos : (true && (result.getD bol 0 != 47)) = true := by
    rw [Bool.true_and]
    exact bne_iff_ne.mpr h
  unfold apply_results
  rw [if_pos hpos]
  split
  · rename_i hgt
    simp [hgt]
  · rename_i hle
    rw [setUse_changed, foldl_callback_changed]
    simp [hle]

/-- witness for C7: a concrete one-path response (1 ≤ 100, bit untouched). -/
theorem apply_results_force_update_witness :
    (apply_results ⟨[], none, none, false, none, false, false⟩
        true [97, 0] 0).cache_changed_fsmonitor =
      (false || decide (fsmonitor_force_update_threshold <
        (nulSegments ([97, 0].drop 0)).length)) :=
  apply_results_force_update ⟨[], none, none, false, none, false, false⟩
    [97, 0] 0 (by decide)

/-! ## Pointwise characterisation of the refresh callback (C4) -/

theorem clearValidAt_getElem (l : List CacheEntry) (pos i : Nat) :
    (clearValidAt l pos)[i]? = (l[i]?).map
      (fun ce => if i = pos then { ce with fsmonitor_valid := false } else ce) := by
  induction l generalizing pos i with
  | nil => simp [clearValidAt]
  | cons ce t ih =>
    cases pos with
    | zero =>
      cases i with
      | zero => simp [clearValidAt]
      | succ j => simp [clearValidAt]
    | succ p =>
      cases i with
      | zero => simp [clearValidAt]
      | succ j => simp [clearValidAt, ih]

theorem ucip_untracked_some (st : IndexState) (n : List Nat) (u : Untracked)
    (hu : st.untracked = some u) :
    (untracked_cache_invalidate_path st n).untracked =
      some { u with invalidated := u.invalidated ++ [n] } := by
  unfold untracked_cache_invalidate_path
  simp [hu]

theorem dirEntryValid (name : List Nat) (ce : CacheEntry) :
    (if ce.fsmonitor_valid && name.isPrefixOf ce.name then
        { ce with fsmonitor_valid := false } else ce).fsmonitor_valid =
      (ce.fsmonitor_valid && !(name.isPrefixOf ce.name)) := by
  cases hv : ce.fsmonitor_valid <;> cases hp : name.isPrefixOf ce.name <;>
    simp [hv, hp]

/-- counterexample to C4 as stated: for the directory path `"src/"` the
code matches entry names against the prefix including the trailing slash,
so the entry `"srcx"` (which begins with the stripped prefix `"src"` but
does not extend it across a slash) keeps `CE_FSMONITOR_VALID`, contrary
to the claim that it is cleared. -/
theorem dir_match_includes_slash :
    ((fsmonitor_refresh_callback
      ⟨[⟨[115, 114, 99, 120], true, false⟩], none, none, false, none, false, false⟩
      [115, 114, 99, 47]).cache.map (fun ce => ce.fsmonitor_valid)) = [true] := by
  decide

/-- claim C4 (amended): for a path ending in a slash the callback clears
`CE_FSMONITOR_VALID` on exactly the entries whose path starts with the
name including its trailing slash (removal flags are not consulted), and
notifies the untracked cache with the non-slashed form; for any other
path, the entry found by the index search (if any) is cleared and the
untracked cache is notified with the path whether or not it was found. -/
theorem refresh_callback_spec (st : IndexState) (name : List Nat)
    (_hne : name ≠ []) :
    (name.getLast? = some 47 →
      (∀ i : Nat, ((fsmonitor_refresh_callback st name).cache[i]?.map
          (fun ce => ce.fsmonitor_valid)) =
        (st.cache[i]?.map (fun ce => ce.fsmonitor_valid && !(name.isPrefixOf ce.name)))) ∧
      (∀ u, st.untracked = some u →
        (fsmonitor_refresh_callback st name).untracked =
          some { u with invalidated := u.invalidated ++ [name.dropLast] })) ∧
    (name.getLast? ≠ some 47 →
      (∀ i : Nat, ((fsmonitor_refresh_callback st name).cache[i]?.map
          (fun ce => ce.fsmonitor_valid)) =
        (st.cache[i]?.map (fun ce =>
          ce.fsmonitor_valid && !(decide (index_name_pos st name = some i))))) ∧
      (∀ u, st.untracked = some u →
        (fsmonitor_refresh_callback st name).untracked =
          some { u with invalidated := u.invalidated ++ [name] })) := by
  constructor
  · intro h47
    unfold fsmonitor_refresh_callback
    rw [if_pos h47]
    constructor
    · intro i
      rw [ucip_cache]
      show ((st.cache.map fun ce =>
          if ce.fsmonitor_valid && name.isPrefixOf ce.name then
            { ce with fsmonitor_valid := false } else ce)[i]?.map
        (fun ce => ce.fsmonitor_valid)) = _
      rw [List.getElem?_map]
      cases hx : st.cache[i]? with
      | none => rfl
      | some ce =>
        simp only [Option.map_some']
        rw [dirEntryValid]
    · intro u hu
      exact ucip_untracked_some _ _ u hu
  · intro h47
    unfold fsmonitor_refresh_callback
    rw [if_neg h47]
    cases hpos : index_name_pos st name with
    | some pos =>
      constructor
      · intro i
        rw [ucip_cache]
        show ((clearValidAt st.cache pos)[i]?.map (fun ce => ce.fsmonitor_valid)) = _
        rw [clearValidAt_getElem]
        cases hx : st.cache[i]? with
        | none => rfl
        | some ce =>
          by_cases hip : i = pos
          · simp [hip]
          · have hpi : ¬ pos = i := fun hc => hip hc.symm
            simp [hip, hpi]
      · intro u hu
        exact ucip_untracked_some _ _ u hu
    | none =>
      constructor
      · intro i
        rw [ucip_cache]
        cases hx : st.cache[i]? with
        | none => rfl
        | some ce => simp
      · intro u hu
        exact ucip_untracked_some _ _ u hu

/-- witness for the amended C4 at the directory path `"d/"` over a
one-entry index tracking `"d/a"`. -/
theorem refresh_callback_spec_witness :
    ((fsmonitor_refresh_callback
        ⟨[⟨[100, 47, 97], true, false⟩], none, none, false, none, false, false⟩
        [100, 47]).cache[0]?.map (fun ce => ce.fsmonitor_valid)) =
      ((IndexState.mk [⟨[100, 47, 97], true, false⟩] none none false none false
          false).cache[0]?.map
        (fun ce => ce.fsmonitor_valid && !([100, 47].isPrefixOf ce.name))) :=
  ((refresh_callback_spec
      ⟨[⟨[100, 47, 97], true, false⟩], none, none, false, none, false, false⟩
      [100, 47] (by decide)).1 (by decide)).1 0

/-! ## Hook negotiation and token replacement (C2, C9) -/

theorem refresh_runs (env : RefreshEnv) (st : IndexState)
    (hmode : env.mode ≠ FsmonitorMode.disabled)
    (hrun : st.fsmonitor_has_run_once = false) :
    refresh_fsmonitor_full env st =
      ({ apply_results { st with fsmonitor_has_run_once := true }
           (runQuery env st.fsmonitor_last_update).success
           (runQuery env st.fsmonitor_last_update).result
           (runQuery env st.fsmonitor_last_update).bol with
         fsmonitor_last_update := some (runQuery env st.fsmonitor_last_update).token },
       (runQuery env st.fsmonitor_last_update).calls) := by
  unfold refresh_fsmonitor_full
  rw [if_neg]
  intro hor
  rcases hor with hd | hr
  · exact hmode hd
  · rw [hrun] at hr
    exact absurd hr (by decide)

/-- counterexample to C2 as stated: in hook mode with an unspecified hook
version and a stored prior token, a successful v2 invocation that returns
an empty token locks the version to 2 and makes no second invocation with
version 1 (the call log is exactly `[2]`, even though a v1 hook response
is available), and the stored token ends up empty instead of the decimal
pre-query clock. -/
theorem hook_v2_empty_token_counterexample :
    (refresh_fsmonitor_full
      ⟨FsmonitorMode.hook, none, none,
        fun v => if v = 2 then some [0] else some [116, 0], 5⟩
      ⟨[], some [88], none, false, none, false, false⟩).2 = [2] ∧
    (refresh_fsmonitor_full
      ⟨FsmonitorMode.hook, none, none,
        fun v => if v = 2 then some [0] else some [116, 0], 5⟩
      ⟨[], some [88], none, false, none, false, false⟩).1.fsmonitor_last_update =
      some [] ∧
    some ([] : List Nat) ≠ some (decimalAscii 5) := by
  refine ⟨rfl, rfl, by decide⟩

/-- claim C2 (amended): in hook mode with an unspecified hook version and
a stored prior token, a successful v2 invocation returning an empty token
demotes the query to failed but locks the hook version to 2: no v1 retry
is made (the hook is invoked exactly once, with version 2) and the stored
token afterwards is the empty string, not the seeded pre-query clock.
The v1 fallback happens only when the v2 invocation itself fails. -/
theorem hook_v2_empty_token_no_retry (env : RefreshEnv) (st : IndexState)
    (prev buf : List Nat)
    (hmode : env.mode = FsmonitorMode.hook)
    (hcfg : env.hookVersionConfig = none)
    (hprev : st.fsmonitor_last_update = some prev)
    (hresp : env.hookResponse 2 = some buf)
    (hempty : tokenUpToNul buf = [])
    (hrun : st.fsmonitor_has_run_once = false) :
    (refresh_fsmonitor_full env st).2 = [2] ∧
    (refresh_fsmonitor_full env st).1.fsmonitor_last_update = some [] := by
  have hhv : fsmonitor_hook_version env = -1 := by
    unfold fsmonitor_hook_version
    rw [hcfg]
  have hq : runQuery env st.fsmonitor_last_update =
      { success := false, result := buf, token := [], bol := 0, calls := [2] } := by
    unfold runQuery
    rw [hmode, hprev, hresp]
    simp [hhv, hempty]
  rw [refresh_runs env st (by rw [hmode]; decide) hrun, hq]
  exact ⟨rfl, rfl⟩

/-- witness for the amended C2 at a concrete environment whose v2 hook
answers with a lone NUL byte. -/
theorem hook_v2_empty_token_no_retry_witness :
    (refresh_fsmonitor_full
      ⟨FsmonitorMode.hook, none, none,
        fun v => if v = 2 then some [0] else some [116, 0], 7⟩
      ⟨[], some [89], none, false, none, false, false⟩).2 = [2] ∧
    (refresh_fsmonitor_full
      ⟨FsmonitorMode.hook, none, none,
        fun v => if v = 2 then some [0] else some [116, 0], 7⟩
      ⟨[], some [89], none, false, none, false, false⟩).1.fsmonitor_last_update =
      some [] :=
  hook_v2_empty_token_no_retry
    ⟨FsmonitorMode.hook, none, none,
      fun v => if v = 2 then some [0] else some [116, 0], 7⟩
    ⟨[], some [89], none, false, none, false, false⟩
    [89] [0] rfl rfl rfl (by decide) (by decide) rfl

theorem runQuery_token_cases (env : RefreshEnv) (prev : Option (List Nat)) :
    (runQuery env prev).token = [] ∨
    (runQuery env prev).token = decimalAscii env.nanotime ∨
    (runQuery env prev).token = builtin_fake ∨
    ∃ buf, (env.ipcResponse = some buf ∨ env.hookResponse 2 = some buf) ∧
      (runQuery env prev).token = tokenUpToNul buf := by
  unfold runQuery
  cases hm : env.mode with
  | ipc =>
    cases hi : env.ipcResponse with
    | some buf =>
      refine Or.inr (Or.inr (Or.inr ⟨buf, Or.inl rfl, ?_⟩))
      simp
    | none =>
      refine Or.inr (Or.inr (Or.inl ?_))
      simp
  | disabled =>
    cases hp : prev with
    | none =>
      by_cases h1 : fsmonitor_hook_version env = 1
      · exact Or.inr (Or.inl (by simp [h1]))
      · exact Or.inl (by simp [h1])
    | some p =>
      by_cases h2 : fsmonitor_hook_version env = -1 ∨ fsmonitor_hook_version env = 2
      · cases hr : env.hookResponse 2 with
        | some buf =>
          by_cases hl : (tokenUpToNul buf).length = 0
          · exact Or.inl (by simp [h2, hr, hl])
          · exact Or.inr (Or.inr (Or.inr ⟨buf, Or.inr rfl, by simp [h2, hr, hl]⟩))
        | none =>
          by_cases hm1 : fsmonitor_hook_version env = -1
          · cases hr1 : env.hookResponse 1 with
            | some buf => exact Or.inr (Or.inl (by simp [h2, hr, hm1, hr1]))
            | none => exact Or.inr (Or.inl (by simp [h2, hr, hm1, hr1]))
          · exact Or.inl (by simp [hr, h2.resolve_left hm1])
      · cases hr1 : env.hookResponse 1 with
        | some buf =>
          by_cases h1 : fsmonitor_hook_version env = 1
          · exact Or.inr (Or.inl (by simp [h2, hr1, h1]))
          · exact Or.inl (by simp [h2, hr1, h1])
        | none =>
          by_cases h1 : fsmonitor_hook_version env = 1
          · exact Or.inr (Or.inl (by simp [h2, hr1, h1]))
          · exact Or.inl (by simp [h2, hr1, h1])
  | hook =>
    cases hp : prev with
    | none =>
      by_cases h1 : fsmonitor_hook_version env = 1
      · exact Or.inr (Or.inl (by simp [h1]))
      · exact Or.inl (by simp [h1])
    | some p =>
      by_cases h2 : fsmonitor_hook_version env = -1 ∨ fsmonitor_hook_version env = 2
      · cases hr : env.hookResponse 2 with
        | some buf =>
          by_cases hl : (tokenUpToNul buf).length = 0
          · exact Or.inl (by simp [h2, hr, hl])
          · exact Or.inr (Or.inr (Or.inr ⟨buf, Or.inr rfl, by simp [h2, hr, hl]⟩))
        | none =>
          by_cases hm1 : fsmonitor_hook_version env = -1
          · cases hr1 : env.hookResponse 1 with
            | some buf => exact Or.inr (Or.inl (by simp [h2, hr, hm1, hr1]))
            | none => exact Or.inr (Or.inl (by simp [h2, hr, hm1, hr1]))
          · exact Or.inl (by simp [hr, h2.resolve_left hm1])
      · cases hr1 : env.hookResponse 1 with
        | some buf =>
          by_cases h1 : fsmonitor_hook_version env = 1
          · exact Or.inr (Or.inl (by simp [h2, hr1, h1]))
          · exact Or.inl (by simp [h2, hr1, h1])
        | none =>
          by_cases h1 : fsmonitor_hook_version env = 1
          · exact Or.inr (Or.inl (by simp [h2, hr1, h1]))
          · exact Or.inl (by simp [h2, hr1, h1])

/-- counterexample to C9 as stated: in hook mode with the hook version
configured to 2 and no stored prior token, the refresh runs, makes no
query, and stores the empty string as the token — which is none of the
three values the claim allows. -/
theorem refresh_stores_empty_token :
    (refresh_fsmonitor
      ⟨FsmonitorMode.hook, some 2, none, fun _ => some [99, 0], 3⟩
      ⟨[], none, none, false, none, false, false⟩).fsmonitor_last_update =
      some [] ∧
    ([] : List Nat) ≠ decimalAscii 3 ∧
    ([] : List Nat) ≠ builtin_fake := by
  refine ⟨rfl, by decide, by decide⟩

/-- claim C9 (amended): every refresh that runs replaces the stored token
at the end, and the new value is one of exactly four things: the token
parsed from a provider response (IPC or hook v2), the decimal ASCII of
the pre-query nanosecond clock, the literal `"builtin:fake"`, or the
empty string (hook mode when no usable token was obtained and the
version was not resolved to v1). -/
theorem refresh_token_values (env : RefreshEnv) (st : IndexState)
    (hmode : env.mode ≠ FsmonitorMode.disabled)
    (hrun : st.fsmonitor_has_run_once = false) :
    ∃ t, (refresh_fsmonitor env st).fsmonitor_last_update = some t ∧
      (t = [] ∨ t = decimalAscii env.nanotime ∨ t = builtin_fake ∨
        ∃ buf, (env.ipcResponse = some buf ∨ env.hookResponse 2 = some buf) ∧
          t = tokenUpToNul buf) := by
  have href : (refresh_fsmonitor env st).fsmonitor_last_update =
      some (runQuery env st.fsmonitor_last_update).token := by
    unfold refresh_fsmonitor
    rw [refresh_runs env st hmode hrun]
  exact ⟨_, href, runQuery_token_cases env st.fsmonitor_last_update⟩

/-- witness for the amended C9 in IPC mode with a concrete response. -/
theorem refresh_token_values_witness :
    ∃ t, (refresh_fsmonitor
        ⟨FsmonitorMode.ipc, none, some [84, 0], fun _ => none, 11⟩
        ⟨[], none, none, false, none, false, false⟩).fsmonitor_last_update = some t ∧
      (t = [] ∨ t = decimalAscii 11 ∨ t = builtin_fake ∨
        ∃ buf, ((some [84, 0] : Option (List Nat)) = some buf ∨
            (fun (_ : Nat) => (none : Option (List Nat))) 2 = some buf) ∧
          t = tokenUpToNul buf) :=
  refresh_token_values
    ⟨FsmonitorMode.ipc, none, some [84, 0], fun _ => none, 11⟩
    ⟨[], none, none, false, none, false, false⟩ (by decide) rfl

/-! ## Monotonicity of the refresh pipeline (C8): every step only clears
`CE_FSMONITOR_VALID`, never sets it (apart from the initial mark-all in
`tweak_fsmonitor`). -/

theorem validAt_eq_getElem (st : IndexState) (i : Nat) :
    validAt st i = ((st.cache[i]?).map (fun ce => ce.fsmonitor_valid)).getD false := by
  unfold validAt
  rw [List.getD_eq_getElem?_getD]
  cases hx : st.cache[i]? <;> simp [defaultEntry]

theorem validAt_congr (st' st : IndexState) (h : st'.cache = st.cache) (i : Nat) :
    validAt st' i = validAt st i := by
  unfold validAt
  rw [h]

theorem clears_map (st st' : IndexState) (f : CacheEntry → CacheEntry)
    (hc : st'.cache = st.cache.map f)
    (hf : ∀ ce, (f ce).fsmonitor_valid = true → ce.fsmonitor_valid = true)
    (i : Nat) (h : validAt st' i = true) : validAt st i = true := by
  rw [validAt_eq_getElem] at h ⊢
  rw [hc, List.getElem?_map] at h
  cases hx : st.cache[i]? with
  | none => rw [hx] at h; simp at h
  | some ce =>
    rw [hx] at h
    simp only [Option.map_some', Option.getD_some] at h ⊢
    exact hf ce h

theorem clears_clearValidAt (st st' : IndexState) (pos : Nat)
    (hc : st'.cache = clearValidAt st.cache pos)
    (i : Nat) (h : validAt st' i = true) : validAt st i = true := by
  rw [validAt_eq_getElem] at h ⊢
  rw [hc, clearValidAt_getElem] at h
  cases hx : st.cache[i]? with
  | none => rw [hx] at h; simp at h
  | some ce =>
    rw [hx] at h
    simp only [Option.map_some', Option.getD_some] at h ⊢
    by_cases hip : i = pos
    · rw [if_pos hip] at h
      simp at h
    · rw [if_neg hip] at h
      exact h

theorem callback_clears (st : IndexState) (n : List Nat) (i : Nat)
    (h : validAt (fsmonitor_refresh_callback st n) i = true) : validAt st i = true := by
  unfold fsmonitor_refresh_callback at h
  split at h
  · rw [validAt_congr _ _ (ucip_cache _ _)] at h
    refine clears_map st _ _ rfl ?_ i h
    intro ce hce
    by_cases hcond : (ce.fsmonitor_valid && n.isPrefixOf ce.name) = true
    · rw [if_pos hcond] at hce
      simp at hce
    · rw [if_neg hcond] at hce
      exact hce
  · split at h
    · rw [validAt_congr _ _ (ucip_cache _ _)] at h
      exact clears_clearValidAt st _ _ rfl i h
    · rw [validAt_congr _ _ (ucip_cache _ _)] at h
      exact h

theorem foldl_callback_clears (l : List (List Nat)) (st : IndexState) (i : Nat)
    (h : validAt (l.foldl fsmonitor_refresh_callback st) i = true) :
    validAt st i = true := by
  induction l generalizing st with
  | nil => exact h
  | cons a t ih =>
    rw [List.foldl_cons] at h
    exact callback_clears st a i (ih _ h)

theorem apply_results_clears (st : IndexState) (success : Bool)
    (result : List Nat) (bol i : Nat)
    (h : validAt (apply_results st success result bol) i = true) :
    validAt st i = true := by
  unfold apply_results at h
  split at h
  · split at h
    · have hc : ({ (setUseFsmonitor ((nulSegments (result.drop bol)).foldl
          fsmonitor_refresh_callback st) true) with
            cache_changed_fsmonitor := true } : IndexState).cache =
          ((nulSegments (result.drop bol)).foldl fsmonitor_refresh_callback st).cache :=
        setUse_cache _ true
      rw [validAt_congr _ _ hc] at h
      exact foldl_callback_clears _ _ _ h
    · rw [validAt_congr _ _ (setUse_cache _ _)] at h
      exact foldl_callback_clears _ _ _ h
  · split at h
    · rw [validAt_congr _ _ (setUse_cache _ _)] at h
      exact clears_map st _ _ rfl (fun ce hce => absurd hce (by simp)) i h
    · rw [validAt_congr _ _ (setUse_cache _ _)] at h
      exact clears_map st _ _ rfl (fun ce hce => absurd hce (by simp)) i h

theorem refresh_clears (env : RefreshEnv) (st : IndexState) (i : Nat)
    (h : validAt (refresh_fsmonitor env st) i = true) : validAt st i = true := by
  unfold refresh_fsmonitor refresh_fsmonitor_full at h
  split at h
  · exact h
  · have h2 : validAt (apply_results { st with fsmonitor_has_run_once := true }
        (runQuery env st.fsmonitor_last_update).success
        (runQuery env st.fsmonitor_last_update).result
        (runQuery env st.fsmonitor_last_update).bol) i = true := h
    have h3 := apply_results_clears _ _ _ _ _ h2
    exact h3

theorem add_clears (env : RefreshEnv) (st : IndexState) (i : Nat)
    (h : validAt (add_fsmonitor env st) i = true) : validAt st i = true := by
  unfold add_fsmonitor at h
  split at h
  · exact h
  · have h2 := refresh_clears _ _ _ h
    rw [validAt_congr _ _ (setUse_cache _ _)] at h2
    exact clears_map st _ _ rfl (fun ce hce => absurd hce (by simp)) i h2

theorem ewahcb_validAt (st : IndexState) (pos i : Nat) :
    validAt (fsmonitor_ewah_callback st pos) i =
      if i = pos then false else validAt st i := by
  unfold fsmonitor_ewah_callback
  rw [validAt_eq_getElem, validAt_eq_getElem]
  show (((clearValidAt st.cache pos)[i]?).map (fun ce => ce.fsmonitor_valid)).getD false = _
  rw [clearValidAt_getElem]
  cases hx : st.cache[i]? with
  | none => simp
  | some ce => by_cases hip : i = pos <;> simp [hip]

theorem ewahcb_clears (st : IndexState) (pos i : Nat)
    (h : validAt (fsmonitor_ewah_callback st pos) i = true) : validAt st i = true := by
  rw [ewahcb_validAt] at h
  by_cases hip : i = pos
  · rw [if_pos hip] at h
    exact absurd h (by decide)
  · rw [if_neg hip] at h
    exact h

theorem foldl_ewah_clears (l : List Nat) (st : IndexState) (i : Nat)
    (h : validAt (l.foldl fsmonitor_ewah_callback st) i = true) :
    validAt st i = true := by
  induction l generalizing st with
  | nil => exact h
  | cons a t ih =>
    rw [List.foldl_cons] at h
    exact ewahcb_clears st a i (ih _ h)

theorem foldl_ewah_clears_mem (l : List Nat) (st : IndexState) (p : Nat)
    (hp : p ∈ l) : validAt (l.foldl fsmonitor_ewah_callback st) p = false := by
  induction l generalizing st with
  | nil => cases hp
  | cons a t ih =>
    rw [List.foldl_cons]
    rcases List.mem_cons.mp hp with rfl | hmem
    · cases hv : validAt (t.foldl fsmonitor_ewah_callback
          (fsmonitor_ewah_callback st p)) p with
      | false => rfl
      | true =>
        have h2 := foldl_ewah_clears t _ p hv
        rw [ewahcb_validAt] at h2
        rw [if_pos rfl] at h2
        exact absurd h2 (by decide)
    · exact ih _ hmem

theorem pipeline_clears (env : RefreshEnv) (l : List Nat) (base A : IndexState)
    (hA : A.cache = (refresh_fsmonitor env (l.foldl fsmonitor_ewah_callback base)).cache)
    (p : Nat) (hp : p ∈ l) :
    validAt (add_fsmonitor env A) p = false := by
  cases hv : validAt (add_fsmonitor env A) p with
  | false => rfl
  | true =>
    have h1 := add_clears env A p hv
    rw [validAt_congr _ _ hA] at h1
    have h3 := refresh_clears env _ p h1
    have h4 := foldl_ewah_clears_mem l base p hp
    rw [h3] at h4
    exact absurd h4 (by decide)

/-- claim C8: reconcile (`tweak_fsmonitor`) with a restored dirty bitmap
and the subsystem enabled marks every entry valid, clears the restored
positions, then runs the refresh engine (and attach): since everything
after the initial mark only clears bits, every position set in the
restored bitmap ends with `CE_FSMONITOR_VALID` cleared; with the
subsystem disabled the bitmap is dropped without touching any entry
flag. -/
theorem tweak_reconcile (env : RefreshEnv) (st : IndexState) :
    (env.mode = FsmonitorMode.disabled →
      (tweak_fsmonitor env st).cache = st.cache ∧
      (tweak_fsmonitor env st).fsmonitor_dirty = none) ∧
    (env.mode ≠ FsmonitorMode.disabled →
      ∀ dirty, st.fsmonitor_dirty = some dirty →
        assert_index_minimum st dirty.bit_size →
        (∀ p ∈ dirty.setBits, p + 1 ≤ st.cache.length) →
        ∀ p ∈ dirty.setBits, validAt (tweak_fsmonitor env st) p = false) := by
  constructor
  · intro hd
    have hnd : ¬ (env.mode ≠ FsmonitorMode.disabled) := by simp [hd]
    cases hdy : st.fsmonitor_dirty with
    | none =>
      have ht : tweak_fsmonitor env st = remove_fsmonitor st := by
        unfold tweak_fsmonitor
        simp only [hdy]
        rw [if_neg hnd]
      rw [ht]
      unfold remove_fsmonitor
      split
      · exact ⟨rfl, hdy⟩
      · exact ⟨rfl, hdy⟩
    | some dirty =>
      have ht : tweak_fsmonitor env st =
          remove_fsmonitor { st with fsmonitor_dirty := none } := by
        unfold tweak_fsmonitor
        simp only [hdy]
        rw [if_neg hnd]
      rw [ht]
      unfold remove_fsmonitor
      split
      · exact ⟨rfl, rfl⟩
      · exact ⟨rfl, rfl⟩
  · intro he dirty hdy _hassert _hbound p hp
    have ht : tweak_fsmonitor env st = add_fsmonitor env
        { (refresh_fsmonitor env
            (dirty.setBits.foldl fsmonitor_ewah_callback
              { st with cache := st.cache.map (fun ce => { ce with fsmonitor_valid := true }),
                        fsmonitor_dirty := some dirty })) with
          fsmonitor_dirty := none } := by
      unfold tweak_fsmonitor
      simp only [hdy]
      rw [if_pos he]
    rw [ht]
    exact pipeline_clears env dirty.setBits
      { st with cache := st.cache.map (fun ce => { ce with fsmonitor_valid := true }),
                fsmonitor_dirty := some dirty }
      { (refresh_fsmonitor env
          (dirty.setBits.foldl fsmonitor_ewah_callback
            { st with cache := st.cache.map (fun ce => { ce with fsmonitor_valid := true }),
                      fsmonitor_dirty := some dirty })) with
        fsmonitor_dirty := none }
      rfl p hp

/-- witness for C8: a restored one-bit bitmap over a two-entry index with
an IPC provider that fails; position 0 ends cleared. -/
theorem tweak_reconcile_witness :
    validAt (tweak_fsmonitor
      ⟨FsmonitorMode.ipc, none, none, fun _ => none, 7⟩
      ⟨[⟨[97], true, false⟩, ⟨[98], false, false⟩], some [49], some ⟨[0], 1⟩,
        false, none, false, false⟩) 0 = false :=
  (tweak_reconcile
    ⟨FsmonitorMode.ipc, none, none, fun _ => none, 7⟩
    ⟨[⟨[97], true, false⟩, ⟨[98], false, false⟩], some [49], some ⟨[0], 1⟩,
      false, none, false, false⟩).2 (by decide) ⟨[0], 1⟩ rfl (by decide)
    (by decide) 0 (by decide)

example : nulSegments [97, 0, 47, 0] = [[97], [47]] := by decide
example : nulSegments [97, 0] = [[97]] := by decide
example : nulSegments [97] = [[97]] := by decide
example : nulSegments [0, 97] = [[], [97]] := by decide
example : readBE32 (toBE32 300 ++ [5, 6]) = 300 := by decide
example : decimalAscii 0 = [48] := by decide
example : decimalAscii 105 = [49, 48, 53] := by decide
